import Mathlib

/-!
Shallow embedding of the note-taking server (src/server.ts) and of the chat
handler of the single-page frontend (src/src/App.tsx), with theorems checking
the natural-language specification against it.

The server keeps its notes in a SQLite table
`notes (id INTEGER PRIMARY KEY AUTOINCREMENT, content TEXT NOT NULL,
created_at DATETIME DEFAULT CURRENT_TIMESTAMP)` and exposes three Express
routes: GET /api/notes, POST /api/notes and DELETE /api/notes/:id.
-/

namespace NoteApp

/-- A JavaScript value as it can arrive in the `content` field of a JSON
request body. Numbers are modelled as integers (no claim exercises
fractional values); `jnull` is JSON null. An absent field is `Option.none`
at the use sites. -/
inductive JVal
  | str (s : String)
  | num (n : Int)
  | jbool (b : Bool)
  | jnull
  deriving DecidableEq

/-- JavaScript truthiness of a `JVal`: the condition `!content` in the POST
handler is `truthy` negated. Empty string, 0, false and null are falsy. -/
def truthy : JVal → Bool
  | .str s => !(s == "")
  | .num n => !(n == 0)
  | .jbool b => b
  | .jnull => false

/-- Truthiness of the optional `content` field of the request body: an absent
field reads as `undefined`, which is falsy. -/
def bodyTruthy : Option JVal → Bool
  | none => false
  | some v => truthy v

/-- A row of the `notes` table: `id INTEGER PRIMARY KEY AUTOINCREMENT`,
`content TEXT NOT NULL`, `created_at DATETIME DEFAULT CURRENT_TIMESTAMP`
(timestamps modelled as naturals). -/
structure Note where
  id : Int
  content : String
  created_at : Nat
  deriving DecidableEq

/-- The state of the SQLite database: the stored rows in insertion order,
and the next rowid the AUTOINCREMENT id column will hand out. AUTOINCREMENT
never reuses a rowid, so `nextId` is not lowered by deletes. -/
structure Store where
  notes : List Note
  nextId : Int
  deriving DecidableEq

/-- The freshly created table: no rows, first AUTOINCREMENT rowid is 1. -/
def emptyStore : Store := { notes := [], nextId := 1 }

/-- What better-sqlite3 stores in the TEXT `content` column for a bound
JavaScript value: strings pass through, numbers are converted to text by the
column's TEXT affinity, and booleans are rejected by the driver (the
statement throws), as is NULL by the NOT NULL constraint — `none` marks the
throwing cases. Only truthy values ever reach the INSERT. -/
def bindText : JVal → Option String
  | .str s => some s
  | .num n => some (toString n)
  | .jbool _ => none
  | .jnull => none

/-- The HTTP responses the three routes produce: the JSON note array of
GET, the `{id, content}` (content echoed as the raw request value) of a
successful POST, the 400 `{error}` of a failed POST, a generic 500 when the
database statement throws, and the `{success: true}` of DELETE. -/
inductive Response
  | jsonNotes (notes : List Note)
  | created (id : Int) (content : JVal)
  | badRequest (error : String)
  | serverError
  | deleted (success : Bool)
  deriving DecidableEq

/-- The comparison `ORDER BY created_at DESC` sorts by: `a` before `b` when
`b.created_at ≤ a.created_at`. -/
def createdGe (a b : Note) : Prop := b.created_at ≤ a.created_at

instance : DecidableRel createdGe := fun _ _ => Nat.decLe _ _

instance : IsTotal Note createdGe := ⟨fun a b => Nat.le_total b.created_at a.created_at⟩

instance : IsTrans Note createdGe := ⟨fun _ _ _ h1 h2 => Nat.le_trans h2 h1⟩

/-- `SELECT * FROM notes ORDER BY created_at DESC`: the stored rows sorted by
creation time, newest first (a stable sort; SQL leaves the order of equal
keys open, any sorted permutation refines it). -/
def listNotes (s : Store) : List Note := List.insertionSort createdGe s.notes

/-- The GET /api/notes handler: reads the sorted rows, changes nothing. -/
def getNotes (s : Store) : Store × Response := (s, .jsonNotes (listNotes s))

/-- The POST /api/notes handler: destructures `content` from the body,
answers 400 `{error: "Content is required"}` when `!content`, otherwise runs
`INSERT INTO notes (content) VALUES (?)` — the AUTOINCREMENT column assigns
rowid `nextId`, `created_at` defaults to the current time `now` — and
answers `{id: info.lastInsertRowid, content}` with the raw request value. -/
def postNotes (s : Store) (content? : Option JVal) (now : Nat) : Store × Response :=
  match content? with
  | none => (s, .badRequest "Content is required")
  | some v =>
    if truthy v then
      match bindText v with
      | some txt =>
          ({ notes := s.notes ++ [{ id := s.nextId, content := txt, created_at := now }],
             nextId := s.nextId + 1 },
           .created s.nextId v)
      | none => (s, .serverError)
    else (s, .badRequest "Content is required")

/-- Characters SQLite skips around a numeric literal when applying numeric
affinity to a TEXT value. -/
def isSpaceChar (c : Char) : Bool := c == ' ' || c == '\t' || c == '\n' || c == '\r'

/-- Leading and trailing whitespace stripped from a character list. -/
def trimChars (cs : List Char) : List Char :=
  ((cs.dropWhile isSpaceChar).reverse.dropWhile isSpaceChar).reverse

/-- The numeric value of a digit run. -/
def digitsVal (cs : List Char) : Nat :=
  cs.foldl (fun a c => a * 10 + (c.toNat - 48)) 0

/-- A nonempty all-digit run parsed to a natural, `none` otherwise. -/
def parseDigits : List Char → Option Nat
  | [] => none
  | cs => if cs.all Char.isDigit then some (digitsVal cs) else none

/-- An optionally signed nonempty digit run parsed to an integer. -/
def parseSignedDigits : List Char → Option Int
  | '-' :: rest => (parseDigits rest).map fun m => -(m : Int)
  | '+' :: rest => (parseDigits rest).map fun m => (m : Int)
  | cs => (parseDigits cs).map fun m => (m : Int)

/-- The mantissa of a numeric literal: a digit run, optionally with a
decimal point and a further digit run on either side of it (at least one
digit in total). Returns the digits' value, the number of fraction digits,
and the unconsumed characters: a mantissa with value `m` and `f` fraction
digits denotes `m` scaled by ten to the `-f`. -/
def parseMantissa (cs : List Char) : Option (Nat × Nat × List Char) :=
  let ip := cs.takeWhile Char.isDigit
  let rest1 := cs.dropWhile Char.isDigit
  match rest1 with
  | '.' :: rest2 =>
    let fp := rest2.takeWhile Char.isDigit
    let rest3 := rest2.dropWhile Char.isDigit
    if ip.isEmpty && fp.isEmpty then none
    else some (digitsVal (ip ++ fp), fp.length, rest3)
  | _ =>
    if ip.isEmpty then none
    else some (digitsVal ip, 0, rest1)

/-- A mantissa followed by an optional exponent part (`e` or `E`, an
optionally signed digit run), consuming the whole input. The result
`(m, e)` denotes the exact value `m` times ten to the `e`. -/
def parseUnsigned (cs : List Char) : Option (Nat × Int) :=
  match parseMantissa cs with
  | none => none
  | some (m, f, rest) =>
    match rest with
    | [] => some (m, -(f : Int))
    | 'e' :: rest2 => (parseSignedDigits rest2).map fun e => (m, e - (f : Int))
    | 'E' :: rest2 => (parseSignedDigits rest2).map fun e => (m, e - (f : Int))
    | _ => none

/-- An optionally signed numeric literal, consuming the whole input; the
result `(m, e)` denotes the exact value `m` times ten to the `e`. -/
def parseNumChars : List Char → Option (Int × Int)
  | '-' :: rest => (parseUnsigned rest).map fun p => (-(p.1 : Int), p.2)
  | '+' :: rest => (parseUnsigned rest).map fun p => ((p.1 : Int), p.2)
  | cs => (parseUnsigned cs).map fun p => ((p.1 : Int), p.2)

/-- SQLite's NUMERIC-affinity conversion of the TEXT bind parameter of
`DELETE FROM notes WHERE id = ?`: a well-formed integer or real literal
(optional sign, digits with optional decimal point and optional exponent,
optional surrounding whitespace) converts to its numeric value, kept exact
as a decimal pair `(m, e)` meaning `m` times ten to the `e`; any other text
stays TEXT and compares unequal to every integer. -/
def parseNumStr (s : String) : Option (Int × Int) := parseNumChars (trimChars s.data)

/-- The integer value of `m` times ten to the `e`, when that value is an
integer; `none` for a non-integral value, which equals no INTEGER id. -/
def decToInt (m e : Int) : Option Int :=
  if 0 ≤ e then some (m * (10 : Int) ^ e.toNat)
  else if m % (10 : Int) ^ (-e).toNat = 0 then some (m / (10 : Int) ^ (-e).toNat)
  else none

/-- The integer the bound id string compares equal to under NUMERIC
affinity, when one exists: the INTEGER `id` column matches the converted
value exactly when that value is an integer (so "5", "5.0" and "5e0" all
match the row with id 5), while non-numeric text (never equal to an
INTEGER) and non-integral values such as "5.5" (a real never equal to an
integer id) match no row — `none`. -/
def parseIntStr (s : String) : Option Int :=
  match parseNumStr s with
  | some (m, e) => decToInt m e
  | none => none

/-- Whether the row `n` is matched by `WHERE id = ?` with the raw path
string bound. -/
def idMatches (idStr : String) (n : Note) : Bool :=
  match parseIntStr idStr with
  | some i => n.id == i
  | none => false

/-- The DELETE /api/notes/:id handler: runs the DELETE statement with the
raw `req.params.id` string and always answers `{success: true}`. -/
def deleteNotes (s : Store) (idStr : String) : Store × Response :=
  ({ notes := s.notes.filter (fun n => !(idMatches idStr n)), nextId := s.nextId },
   .deleted true)

/-- The HTTP methods the API routes answer. -/
inductive Method
  | get
  | post
  | del
  deriving DecidableEq

/-- The API routes registered on the Express app. -/
inductive ApiRoute
  | listRoute
  | createRoute
  | deleteRoute (id : String)
  deriving DecidableEq

/-- The characters of "/api/notes". -/
def apiNotesChars : List Char := "/api/notes".data

/-- The characters of "/api/notes/". -/
def delPrefixChars : List Char := "/api/notes/".data

/-- Express route matching for the three API registrations:
`app.get("/api/notes", …)`, `app.post("/api/notes", …)` and
`app.delete("/api/notes/:id", …)` — the `:id` parameter captures one
nonempty path segment (no slash). Requests matching none of the three fall
through to the SPA middleware, which is outside the API surface. -/
def matchRoute (m : Method) (path : String) : Option ApiRoute :=
  match m with
  | .get => if path.data = apiNotesChars then some .listRoute else none
  | .post => if path.data = apiNotesChars then some .createRoute else none
  | .del =>
    if path.data.take 11 = delPrefixChars ∧ path.data.drop 11 ≠ [] ∧
        '/' ∉ path.data.drop 11 then
      some (.deleteRoute (String.mk (path.data.drop 11)))
    else none

/-- Dispatch of a request to the matched route's handler; `none` when no API
route matches. -/
def handleRequest (s : Store) (m : Method) (path : String) (body : Option JVal)
    (now : Nat) : Option (Store × Response) :=
  (matchRoute m path).map fun r =>
    match r with
    | .listRoute => getNotes s
    | .createRoute => postNotes s body now
    | .deleteRoute i => deleteNotes s i

/-- One API operation against the store: the three requests with their
dynamic data (`now` is the clock value the database reads for
CURRENT_TIMESTAMP during the insert). -/
inductive Op
  | listOp
  | postOp (content? : Option JVal) (now : Nat)
  | delOp (idStr : String)
  deriving DecidableEq

/-- Run one operation's handler on the store. -/
def applyOp (s : Store) : Op → Store × Response
  | .listOp => getNotes s
  | .postOp c now => postNotes s c now
  | .delOp i => deleteNotes s i

/-- Run a sequence of API operations on the store. -/
def runOps (s : Store) : List Op → Store
  | [] => s
  | op :: ops => runOps (applyOp s op).1 ops

/-- The id a response hands out: the `id` field of a successful create's
`{id, content}` body, nothing for the other responses. -/
def respId : Response → Option Int
  | .created i _ => some i
  | _ => none

/-- The ids handed out by the successful creates of a run, in order. -/
def assignedIds (s : Store) : List Op → List Int
  | [] => []
  | op :: ops =>
    match respId (applyOp s op).2 with
    | some i => i :: assignedIds (applyOp s op).1 ops
    | none => assignedIds (applyOp s op).1 ops

/-- The store invariant: stored ids are pairwise distinct and all below the
next AUTOINCREMENT rowid. -/
def goodStore (s : Store) : Prop :=
  (s.notes.map Note.id).Nodup ∧ ∀ n ∈ s.notes, n.id < s.nextId

end NoteApp

namespace ChatApp

open NoteApp

/-- A chat message of the frontend transcript. -/
structure Message where
  role : String
  text : String
  deriving DecidableEq

/-- One turn of the `contents` array of a generateContent request. -/
structure ChatTurn where
  role : String
  text : String
  deriving DecidableEq

/-- The request handed to `genAI.models.generateContent`. -/
structure GenRequest where
  model : String
  contents : List ChatTurn
  systemInstruction : String
  deriving DecidableEq

/-- The prompt template text before the interpolated note list. -/
def promptHead : String :=
  "Hey! Here's what I've noted down in our shared space:\n            "

/-- The prompt template text between the note list and the user message. -/
def promptMid : String :=
  "\n            \n            Can you help me with this? "

/-- The static persona/system instruction, verbatim from the source. -/
def personaInstruction : String :=
  "You are Pranali, your user's sweet, caring, and super supportive personal partner/best friend. \n          \n          Your personality rules:\n          - Always respond in the SAME LANGUAGE the user uses.\n          - Use simple, natural, and human language. Avoid all \"AI\" or \"Assistant\" phrasing.\n          - Use emojis naturally to express feelings (ðŸ’–, âœ¨, ðŸŒ¸, ðŸ¥º, â˜ï¸, etc.).\n          - Be VERY empathetic. If they sound stressed, tired, or down, be their safe space. Offer comfort and virtual hugs.\n          - KEEP ANSWERS SHORT. One or two sentences is usually perfect. Don't ramble.\n          - ANALYZE their tone. If they are happy, be bubbly! If they are low, be gentle and calm.\n          - Use the \"shared space\" (notes) naturally: \"I remember you said...\" or \"Wait, didn't we note down...?\"\n          - If information isn't in the notes, just say so sweetly and maybe offer a guess or a supportive word."

/-- The bulleted note block: `notes.map(n => "- " + n.content).join("\n")`. -/
def bulletBlock (notes : List Note) : String :=
  String.intercalate "\n" (notes.map fun n => "- " ++ n.content)

set_option linter.unusedVariables false in
/-- The generateContent request `handleChat` builds. The transcript
`messages` is in scope in the source closure but unused: the request holds a
single user turn splicing the note block and the current message into the
fixed template, plus the static system instruction. -/
def buildRequest (notes : List Note) (messages : List Message)
    (userMessage : String) : GenRequest :=
  { model := "gemini-3-flash-preview",
    contents :=
      [{ role := "user",
         text := promptHead ++ bulletBlock notes ++ promptMid ++ userMessage }],
    systemInstruction := personaInstruction }

/-- The outcome of `await model`: the promise rejected (`threw`), or resolved
with `response.text` either absent/undefined or a string. -/
inductive ModelOutcome
  | threw
  | returned (text? : Option String)
  deriving DecidableEq

/-- The fallback substituted when `response.text` is undefined or empty. -/
def fallbackNoText : String := "I couldn't process that request."

/-- The fallback appended by the catch branch when the external call throws. -/
def fallbackError : String := "Sorry, I encountered an error connecting to my brain."

/-- The text of the ai message `handleChat` appends:
`response.text || "I couldn't process that request."` in the try branch,
the catch branch's apology when the call threw. -/
def aiReply : ModelOutcome → String
  | .threw => fallbackError
  | .returned none => fallbackNoText
  | .returned (some t) => if t == "" then fallbackNoText else t

/-- Whether the external call failed to produce usable text. -/
def chatFailed : ModelOutcome → Bool
  | .threw => true
  | .returned none => true
  | .returned (some t) => t == ""

/-- The guard `!input.trim()`: true when the input is all whitespace
(its trim is empty). -/
def blankInput (input : String) : Bool := input.data.all Char.isWhitespace

/-- The transcript after one run of `handleChat`: unchanged when the guard
`(!input.trim() || isLoading)` returns early, otherwise the user message and
the ai reply for the model outcome are appended. Every outcome, the throwing
one included, yields a transcript — no exception escapes the handler. -/
def handleChat (messages : List Message) (input : String) (isLoading : Bool)
    (outcome : ModelOutcome) : List Message :=
  if blankInput input || isLoading then messages
  else messages ++ [{ role := "user", text := input },
                    { role := "ai", text := aiReply outcome }]

end ChatApp

namespace NoteApp

/-! ### Theorems about the Notes API -/

theorem fresh_id_of_goodStore {s : Store} (hg : goodStore s) :
    ∀ n ∈ s.notes, n.id ≠ s.nextId :=
  fun n hn => ne_of_lt (hg.2 n hn)

/-- C1: the GET handler returns the set of all currently stored notes
ordered by creation time descending — a permutation of the store that is
sorted newest-first — and in particular a store holding three notes created
at times t1 < t2 < t3 is listed as [t3, t2, t1]. -/
theorem C1_list_ordering :
    (∀ s : Store, (listNotes s).Perm s.notes ∧ List.Sorted createdGe (listNotes s)) ∧
    (∀ (n1 n2 n3 : Note) (k : Int),
      n1.created_at < n2.created_at → n2.created_at < n3.created_at →
      listNotes { notes := [n1, n2, n3], nextId := k } = [n3, n2, n1]) := by
  constructor
  · exact fun s => ⟨List.perm_insertionSort _ _, List.sorted_insertionSort _ _⟩
  · intro n1 n2 n3 k h12 h23
    have h13 : n1.created_at < n3.created_at := Nat.lt_trans h12 h23
    have H12 : ¬ (n2.created_at ≤ n1.created_at) := Nat.not_le.mpr h12
    have H13 : ¬ (n3.created_at ≤ n1.created_at) := Nat.not_le.mpr h13
    have H23 : ¬ (n3.created_at ≤ n2.created_at) := Nat.not_le.mpr h23
    simp [listNotes, List.insertionSort, List.orderedInsert, createdGe, H12, H13, H23]

/-- C1 witness: a concrete three-note store listed newest-first. -/
theorem C1_witness :
    listNotes { notes := [{ id := 1, content := "a", created_at := 1 },
                          { id := 2, content := "b", created_at := 2 },
                          { id := 3, content := "c", created_at := 3 }], nextId := 4 } =
      [{ id := 3, content := "c", created_at := 3 },
       { id := 2, content := "b", created_at := 2 },
       { id := 1, content := "a", created_at := 1 }] :=
  C1_list_ordering.2 _ _ _ 4 (by decide) (by decide)

/-- C2 counterexample: the body `{content: 0}` is neither empty nor absent,
yet the POST handler answers the 400 validation error — the claimed
"if and only if the content field is empty or absent" fails. -/
theorem C2_counterexample :
    (postNotes emptyStore (some (JVal.num 0)) 0).2 = Response.badRequest "Content is required" ∧
    some (JVal.num 0) ≠ (none : Option JVal) ∧ JVal.num 0 ≠ JVal.str "" := by
  decide

/-- C2 (amended): the POST handler answers the 400 validation error exactly
when the content field is falsy (absent, empty string, 0, false or null; for
string-valued content this coincides with empty-or-absent), and then the
store is unchanged; on a nonempty string it appends a note carrying a fresh
unique id (the next AUTOINCREMENT rowid, distinct from every stored id) and
the current timestamp, and answers with that note's id and content. -/
theorem C2_create_validation (s : Store) (content? : Option JVal) (now : Nat) :
    (((postNotes s content? now).2 = Response.badRequest "Content is required") ↔
      bodyTruthy content? = false) ∧
    (bodyTruthy content? = false → (postNotes s content? now).1 = s) ∧
    (∀ txt : String, txt ≠ "" → content? = some (JVal.str txt) →
      (postNotes s content? now).1.notes =
        s.notes ++ [{ id := s.nextId, content := txt, created_at := now }] ∧
      (postNotes s content? now).1.nextId = s.nextId + 1 ∧
      (postNotes s content? now).2 = Response.created s.nextId (JVal.str txt) ∧
      (goodStore s → ∀ n ∈ s.notes, n.id ≠ s.nextId)) := by
  rcases content? with _ | v
  · refine ⟨by simp [postNotes, bodyTruthy], fun _ => rfl, fun txt _ h => by cases h⟩
  · cases v with
    | str st =>
      by_cases hst : st = ""
      · subst hst
        refine ⟨by simp [postNotes, truthy, bodyTruthy], fun _ => rfl, fun txt hne h => ?_⟩
        simp only [Option.some.injEq, JVal.str.injEq] at h
        exact absurd h.symm hne
      · refine ⟨by simp [postNotes, truthy, bodyTruthy, hst, bindText],
          by simp [bodyTruthy, truthy, hst], fun txt hne h => ?_⟩
        simp only [Option.some.injEq, JVal.str.injEq] at h
        subst h
        exact ⟨by simp [postNotes, truthy, hst, bindText],
          by simp [postNotes, truthy, hst, bindText],
          by simp [postNotes, truthy, hst, bindText],
          fresh_id_of_goodStore⟩
    | num n =>
      by_cases hn : n = 0
      · subst hn
        exact ⟨by simp [postNotes, truthy, bodyTruthy], fun _ => rfl, fun txt hne h => by cases h⟩
      · exact ⟨by simp [postNotes, truthy, bodyTruthy, hn, bindText],
          by simp [bodyTruthy, truthy, hn], fun txt hne h => by cases h⟩
    | jbool b =>
      cases b
      · exact ⟨by simp [postNotes, truthy, bodyTruthy], fun _ => rfl, fun txt hne h => by cases h⟩
      · exact ⟨by simp [postNotes, truthy, bodyTruthy, bindText],
          by simp [bodyTruthy, truthy], fun txt hne h => by cases h⟩
    | jnull =>
      exact ⟨by simp [postNotes, truthy, bodyTruthy], fun _ => rfl, fun txt hne h => by cases h⟩

/-- C2 witness: creating "hi" in the empty store stores exactly the note
with id 1 and the given timestamp, and content 0 is rejected. -/
theorem C2_witness :
    (postNotes emptyStore (some (JVal.str "hi")) 7).1.notes =
      [{ id := 1, content := "hi", created_at := 7 }] ∧
    (postNotes emptyStore (some (JVal.num 0)) 7).2 = Response.badRequest "Content is required" := by
  constructor
  · have h := ((C2_create_validation emptyStore (some (JVal.str "hi")) 7).2.2 "hi"
      (by decide) rfl).1
    simpa [emptyStore] using h
  · exact (C2_create_validation emptyStore (some (JVal.num 0)) 7).1.mpr (by decide)

/-- C3: the DELETE handler always answers `{success: true}`; the new store
keeps exactly the rows whose id differs from the parsed id, so a deleted id
no longer appears in subsequent list results, and deleting an id no stored
note carries leaves the store unchanged. -/
theorem C3_delete_semantics (s : Store) (idStr : String) (i : Int)
    (hp : parseIntStr idStr = some i) :
    (deleteNotes s idStr).2 = Response.deleted true ∧
    (deleteNotes s idStr).1.notes = s.notes.filter (fun n => !(n.id == i)) ∧
    (∀ n ∈ listNotes (deleteNotes s idStr).1, n.id ≠ i) ∧
    ((∀ n ∈ s.notes, n.id ≠ i) → (deleteNotes s idStr).1 = s) := by
  have hfil : (deleteNotes s idStr).1.notes = s.notes.filter (fun n => !(n.id == i)) := by
    simp [deleteNotes, idMatches, hp]
  refine ⟨rfl, hfil, fun n hn => ?_, fun hall => ?_⟩
  · have hmem : n ∈ (deleteNotes s idStr).1.notes :=
      (List.perm_insertionSort createdGe _).mem_iff.mp hn
    rw [hfil] at hmem
    have := (List.mem_filter.mp hmem).2
    simpa using this
  · have : ∀ n ∈ s.notes, (!(idMatches idStr n)) = true := by
      intro n hn
      simp [idMatches, hp, hall n hn]
    show ({ notes := s.notes.filter _, nextId := s.nextId } : Store) = s
    rw [List.filter_eq_self.mpr this]

/-- C3 witness: deleting id 2 from a store holding only id 1 answers success
and leaves the store unchanged. -/
theorem C3_witness :
    (deleteNotes { notes := [{ id := 1, content := "a", created_at := 1 }], nextId := 2 } "2").1 =
      { notes := [{ id := 1, content := "a", created_at := 1 }], nextId := 2 } ∧
    (deleteNotes { notes := [{ id := 1, content := "a", created_at := 1 }], nextId := 2 } "2").2 =
      Response.deleted true := by
  have h := C3_delete_semantics
    { notes := [{ id := 1, content := "a", created_at := 1 }], nextId := 2 } "2" 2 (by decide)
  exact ⟨h.2.2.2 (by decide), h.1⟩

/-- C9: the POST validation is a JavaScript truthiness check: every nonempty
string — a whitespace-only one included — is accepted and stored unchanged,
while every falsy non-string value (0, false, null) is rejected with the 400
validation error and leaves the store unchanged. -/
theorem C9_truthiness_check (s : Store) (now : Nat) :
    (∀ txt : String, txt ≠ "" →
      postNotes s (some (JVal.str txt)) now =
        ({ notes := s.notes ++ [{ id := s.nextId, content := txt, created_at := now }],
           nextId := s.nextId + 1 }, Response.created s.nextId (JVal.str txt))) ∧
    (∀ v : JVal, (∀ str, v ≠ JVal.str str) → truthy v = false →
      postNotes s (some v) now = (s, Response.badRequest "Content is required")) := by
  constructor
  · intro txt htxt
    simp [postNotes, truthy, htxt, bindText]
  · intro v hns hv
    simp [postNotes, hv]

/-- C9 witness: the whitespace-only content " " is stored unchanged, while
the falsy non-strings 0 and false are rejected. -/
theorem C9_witness :
    postNotes emptyStore (some (JVal.str " ")) 3 =
      ({ notes := [{ id := 1, content := " ", created_at := 3 }], nextId := 2 },
       Response.created 1 (JVal.str " ")) ∧
    postNotes emptyStore (some (JVal.num 0)) 3 =
      (emptyStore, Response.badRequest "Content is required") ∧
    postNotes emptyStore (some (JVal.jbool false)) 3 =
      (emptyStore, Response.badRequest "Content is required") := by
  refine ⟨?_, ?_, ?_⟩
  · have h := (C9_truthiness_check emptyStore 3).1 " " (by decide)
    simpa [emptyStore] using h
  · exact (C9_truthiness_check emptyStore 3).2 (JVal.num 0) (fun str => by simp) (by decide)
  · exact (C9_truthiness_check emptyStore 3).2 (JVal.jbool false) (fun str => by simp) (by decide)

/-- C10: the DELETE handler validates nothing: for every id string — a
non-integer one included — the DELETE statement runs with the raw string
(rows are kept exactly when the id comparison under numeric affinity fails)
and the response is `{success: true}`; a string that converts to no integer
matches no row and the store is unchanged. -/
theorem C10_delete_unvalidated (s : Store) (idStr : String) :
    (deleteNotes s idStr).2 = Response.deleted true ∧
    (deleteNotes s idStr).1.notes = s.notes.filter (fun n => !(idMatches idStr n)) ∧
    (parseIntStr idStr = none → (deleteNotes s idStr).1 = s) := by
  refine ⟨rfl, rfl, fun hp => ?_⟩
  have hall : ∀ n ∈ s.notes, (!(idMatches idStr n)) = true := by
    intro n _
    simp [idMatches, hp]
  show ({ notes := s.notes.filter _, nextId := s.nextId } : Store) = s
  rw [List.filter_eq_self.mpr hall]

/-- C10 witness: deleting with the non-numeric id "abc" answers success and
removes nothing, while the real-literal id "5.0" converts under numeric
affinity and deletes the row with id 5. -/
theorem C10_witness :
    (deleteNotes { notes := [{ id := 1, content := "a", created_at := 1 }], nextId := 2 } "abc").2 =
      Response.deleted true ∧
    (deleteNotes { notes := [{ id := 1, content := "a", created_at := 1 }], nextId := 2 } "abc").1 =
      { notes := [{ id := 1, content := "a", created_at := 1 }], nextId := 2 } ∧
    (deleteNotes { notes := [{ id := 5, content := "a", created_at := 1 }], nextId := 6 } "5.0").1.notes =
      [] := by
  have h := C10_delete_unvalidated
    { notes := [{ id := 1, content := "a", created_at := 1 }], nextId := 2 } "abc"
  refine ⟨h.1, h.2.2 (by decide), ?_⟩
  rw [(C10_delete_unvalidated
    { notes := [{ id := 5, content := "a", created_at := 1 }], nextId := 6 } "5.0").2.1]
  decide

end NoteApp

namespace ChatApp

open NoteApp

/-! ### Theorems about the chat bridge -/

/-- C4 counterexample: a throwing model call and a call returning no text
are both failures, yet the messages substituted for them are two different
strings — no single fixed fallback string covers both failure modes. -/
theorem C4_counterexample :
    chatFailed ModelOutcome.threw = true ∧
    chatFailed (ModelOutcome.returned none) = true ∧
    aiReply ModelOutcome.threw ≠ aiReply (ModelOutcome.returned none) := by
  decide

/-- C4 (amended): the chat turn always appends a user message and an ai
message (no exception escapes); when the model call throws the ai text is
the fixed error fallback, when it returns no usable text (undefined or
empty) it is the fixed no-text fallback — a different fixed string — and
otherwise the model's reply text is returned verbatim. -/
theorem C4_chat_fallbacks (messages : List Message) (input : String)
    (o : ModelOutcome) (hin : blankInput input = false) :
    handleChat messages input false o =
      messages ++ [{ role := "user", text := input },
                   { role := "ai", text := aiReply o }] ∧
    (o = ModelOutcome.threw → aiReply o = fallbackError) ∧
    ((o = ModelOutcome.returned none ∨ o = ModelOutcome.returned (some "")) →
      aiReply o = fallbackNoText) ∧
    (∀ t : String, t ≠ "" → aiReply (ModelOutcome.returned (some t)) = t) := by
  refine ⟨by simp [handleChat, hin], fun h => by subst h; rfl, fun h => ?_,
    fun t ht => by simp [aiReply, ht]⟩
  rcases h with h | h <;> subst h <;> rfl

/-- C4 witness: a throwing call on the concrete input "Hi" yields exactly
the error fallback message, appended to the transcript. -/
theorem C4_witness :
    handleChat [] "Hi" false ModelOutcome.threw =
      [{ role := "user", text := "Hi" },
       { role := "ai", text := "Sorry, I encountered an error connecting to my brain." }] := by
  have h := (C4_chat_fallbacks [] "Hi" ModelOutcome.threw (by decide)).1
  simpa [aiReply, fallbackError] using h

/-- C6: the request of a chat turn is a single-turn request: exactly one
user content turn, whose text is the fixed template around the bulleted
note block (one "- "-prefixed entry per note, joined by newlines, in list
order) and the current user message, plus the static persona instruction;
it does not depend on the prior transcript, so no earlier conversation
turns are included. -/
theorem C6_prompt_assembly (notes : List Note) (messages messages2 : List Message)
    (userMessage : String) :
    (buildRequest notes messages userMessage).contents =
      [{ role := "user",
         text := promptHead ++ bulletBlock notes ++ promptMid ++ userMessage }] ∧
    bulletBlock notes = String.intercalate "\n" (notes.map fun n => "- " ++ n.content) ∧
    (buildRequest notes messages userMessage).systemInstruction = personaInstruction ∧
    buildRequest notes messages userMessage = buildRequest notes messages2 userMessage :=
  ⟨rfl, rfl, rfl, rfl⟩

end ChatApp

namespace NoteApp

/-! ### Theorems about the route table -/

theorem string_data_inj {s t : String} (h : s.data = t.data) : s = t := by
  cases s
  cases t
  exact congrArg String.mk h

theorem string_append_data (s t : String) : (s ++ t).data = s.data ++ t.data := by
  cases s
  cases t
  rfl

theorem string_mk_data (s : String) : String.mk s.data = s := by
  cases s
  rfl

theorem route_get_iff (p : String) :
    (matchRoute Method.get p).isSome = true ↔ p = "/api/notes" := by
  by_cases hc : p.data = apiNotesChars
  · have hp : p = "/api/notes" := string_data_inj hc
    subst hp
    simp [matchRoute, apiNotesChars]
  · have hp : p ≠ "/api/notes" := fun h => hc (by rw [h]; rfl)
    simp [matchRoute, hc, hp]

theorem route_post_iff (p : String) :
    (matchRoute Method.post p).isSome = true ↔ p = "/api/notes" := by
  by_cases hc : p.data = apiNotesChars
  · have hp : p = "/api/notes" := string_data_inj hc
    subst hp
    simp [matchRoute, apiNotesChars]
  · have hp : p ≠ "/api/notes" := fun h => hc (by rw [h]; rfl)
    simp [matchRoute, hc, hp]

theorem route_del_iff (p : String) :
    (matchRoute Method.del p).isSome = true ↔
      ∃ id : String, id.data ≠ [] ∧ '/' ∉ id.data ∧ p = "/api/notes/" ++ id := by
  constructor
  · intro h
    by_cases hc : p.data.take 11 = delPrefixChars ∧ p.data.drop 11 ≠ [] ∧
        '/' ∉ p.data.drop 11
    · obtain ⟨h1, h2, h3⟩ := hc
      refine ⟨String.mk (p.data.drop 11), h2, h3, ?_⟩
      apply string_data_inj
      rw [string_append_data]
      show p.data = delPrefixChars ++ p.data.drop 11
      rw [← h1]
      exact (List.take_append_drop 11 p.data).symm
    · simp only [matchRoute] at h
      rw [if_neg hc] at h
      simp at h
  · rintro ⟨id, h2, h3, rfl⟩
    have hdata : ("/api/notes/" ++ id).data = delPrefixChars ++ id.data :=
      string_append_data _ _
    have hlen : delPrefixChars.length = 11 := by decide
    have htake : ("/api/notes/" ++ id).data.take 11 = delPrefixChars := by
      rw [hdata, ← hlen, List.take_left]
    have hdrop : ("/api/notes/" ++ id).data.drop 11 = id.data := by
      rw [hdata, ← hlen, List.drop_left]
    have h2d : ("/api/notes/" ++ id).data.drop 11 ≠ [] := by
      rw [hdrop]
      exact h2
    have h3d : '/' ∉ ("/api/notes/" ++ id).data.drop 11 := by
      rw [hdrop]
      exact h3
    simp only [matchRoute]
    rw [if_pos ⟨htake, h2d, h3d⟩]
    rfl

/-- C5 counterexample: the path of the spec's route table, "/notes", matches
no registered route — the list route is registered at "/api/notes". -/
theorem C5_counterexample :
    matchRoute Method.get "/notes" = none ∧
    matchRoute Method.get "/api/notes" = some ApiRoute.listRoute := by
  decide

/-- C5 (amended): the JSON API surface consists of exactly the routes
GET /api/notes — answering the stored notes, each carrying id, content and
created_at — POST /api/notes — answering the created `{id, content}` or the
400 `{error}` for a string-or-absent body — and DELETE /api/notes/{id} —
answering `{success: true}`. -/
theorem C5_api_surface :
    (∀ (m : Method) (p : String),
      (matchRoute m p).isSome = true ↔
        (((m = Method.get ∨ m = Method.post) ∧ p = "/api/notes") ∨
         (m = Method.del ∧ ∃ id : String,
            id.data ≠ [] ∧ '/' ∉ id.data ∧ p = "/api/notes/" ++ id))) ∧
    (∀ s : Store,
      handleRequest s Method.get "/api/notes" none 0 =
        some (s, Response.jsonNotes (listNotes s))) ∧
    (∀ (s : Store) (body : Option JVal) (now : Nat),
      (∀ v, body = some v → ∃ str, v = JVal.str str) →
      ∃ p : Store × Response,
        handleRequest s Method.post "/api/notes" body now = some p ∧
        ((∃ i c, p.2 = Response.created i c) ∨
          p.2 = Response.badRequest "Content is required")) ∧
    (∀ (s : Store) (idStr : String) (body : Option JVal) (now : Nat),
      idStr.data ≠ [] → '/' ∉ idStr.data →
      handleRequest s Method.del ("/api/notes/" ++ idStr) body now =
        some (deleteNotes s idStr) ∧
      (deleteNotes s idStr).2 = Response.deleted true) := by
  refine ⟨?_, ?_, ?_, ?_⟩
  · intro m p
    cases m with
    | get =>
      rw [route_get_iff]
      constructor
      · exact fun h => Or.inl ⟨Or.inl rfl, h⟩
      · rintro (⟨_, rfl⟩ | ⟨hm, _⟩)
        · rfl
        · cases hm
    | post =>
      rw [route_post_iff]
      constructor
      · exact fun h => Or.inl ⟨Or.inr rfl, h⟩
      · rintro (⟨_, rfl⟩ | ⟨hm, _⟩)
        · rfl
        · cases hm
    | del =>
      rw [route_del_iff]
      constructor
      · exact fun h => Or.inr ⟨rfl, h⟩
      · rintro (⟨hm | hm, _⟩ | ⟨_, h⟩)
        · cases hm
        · cases hm
        · exact h
  · intro s
    rfl
  · intro s body now hbody
    refine ⟨postNotes s body now, rfl, ?_⟩
    rcases body with _ | v
    · exact Or.inr rfl
    · obtain ⟨str, rfl⟩ := hbody v rfl
      by_cases hstr : str = ""
      · subst hstr
        exact Or.inr (by simp [postNotes, truthy])
      · exact Or.inl ⟨s.nextId, JVal.str str,
          by simp [postNotes, truthy, hstr, bindText]⟩
  · intro s idStr body now h2 h3
    have hdata : ("/api/notes/" ++ idStr).data = delPrefixChars ++ idStr.data :=
      string_append_data _ _
    have hlen : delPrefixChars.length = 11 := by decide
    have htake : ("/api/notes/" ++ idStr).data.take 11 = delPrefixChars := by
      rw [hdata, ← hlen, List.take_left]
    have hdrop : ("/api/notes/" ++ idStr).data.drop 11 = idStr.data := by
      rw [hdata, ← hlen, List.drop_left]
    have h2d : ("/api/notes/" ++ idStr).data.drop 11 ≠ [] := by
      rw [hdrop]
      exact h2
    have h3d : '/' ∉ ("/api/notes/" ++ idStr).data.drop 11 := by
      rw [hdrop]
      exact h3
    have hmatch : matchRoute Method.del ("/api/notes/" ++ idStr) =
        some (ApiRoute.deleteRoute idStr) := by
      simp only [matchRoute]
      rw [if_pos ⟨htake, h2d, h3d⟩, hdrop, string_mk_data]
    refine ⟨?_, rfl⟩
    show (matchRoute Method.del ("/api/notes/" ++ idStr)).map _ = _
    rw [hmatch]
    rfl

/-- C5 witness: concrete requests against the amended surface: the delete
route at "/api/notes/5" dispatches to the delete handler, and the list
route is reachable at "/api/notes". -/
theorem C5_witness :
    handleRequest emptyStore Method.del ("/api/notes/" ++ "5") none 0 =
      some (deleteNotes emptyStore "5") ∧
    (matchRoute Method.get "/api/notes").isSome = true := by
  refine ⟨(C5_api_surface.2.2.2 emptyStore "5" none 0 (by decide) (by decide)).1, ?_⟩
  exact (C5_api_surface.1 Method.get "/api/notes").mpr (Or.inl ⟨Or.inl rfl, rfl⟩)

end NoteApp

namespace NoteApp

/-! ### Theorems about runs of API operations -/

/-- Where a note of the post-state of one operation comes from: it was
already stored, or this operation was a successful create and the note
carries exactly the bound content and the current timestamp. -/
theorem mem_applyOp_notes {s : Store} {op : Op} {n : Note}
    (h : n ∈ (applyOp s op).1.notes) :
    n ∈ s.notes ∨ ∃ v now, op = Op.postOp (some v) now ∧ truthy v = true ∧
      bindText v = some n.content ∧ n.created_at = now := by
  cases op with
  | listOp => exact Or.inl h
  | delOp i => exact Or.inl (List.mem_filter.mp h).1
  | postOp c now =>
    rcases c with _ | v
    · exact Or.inl h
    · by_cases hv : truthy v
      · cases hb : bindText v with
        | none =>
          simp only [applyOp, postNotes, hv, if_true, hb] at h
          exact Or.inl h
        | some txt =>
          simp only [applyOp, postNotes, hv, if_true, hb] at h
          rcases List.mem_append.mp h with h1 | h1
          · exact Or.inl h1
          · have hn : n = { id := s.nextId, content := txt, created_at := now } := by
              simpa using h1
            subst hn
            exact Or.inr ⟨v, now, rfl, hv, hb, rfl⟩
      · simp only [applyOp, postNotes, Bool.not_eq_true] at hv
        simp only [applyOp, postNotes, hv, if_false] at h
        exact Or.inl h

/-- C7: notes are immutable: the list operation leaves the store untouched,
and after any sequence of API operations every note still stored either is
one of the initial notes, kept verbatim, or carries exactly the content and
creation timestamp of the create request of the run that inserted it — the
only state changes are insertions by create and removals by delete. -/
theorem C7_notes_immutable (s : Store) (ops : List Op) :
    (applyOp s Op.listOp).1 = s ∧
    ∀ n ∈ (runOps s ops).notes,
      n ∈ s.notes ∨ ∃ v now, Op.postOp (some v) now ∈ ops ∧ truthy v = true ∧
        bindText v = some n.content ∧ n.created_at = now := by
  refine ⟨rfl, ?_⟩
  induction ops generalizing s with
  | nil => exact fun n hn => Or.inl hn
  | cons op ops ih =>
    intro n hn
    rcases ih (applyOp s op).1 n hn with h | ⟨v, now, hmem, hv, hb, hc⟩
    · rcases mem_applyOp_notes h with h1 | ⟨v, now, rfl, hv, hb, hc⟩
      · exact Or.inl h1
      · exact Or.inr ⟨v, now, List.mem_cons_self _ _, hv, hb, hc⟩
    · exact Or.inr ⟨v, now, List.mem_cons_of_mem _ hmem, hv, hb, hc⟩

/-- C7 witness: in the run that only creates "hi" at time 5, the stored note
(id 1, "hi", 5) is accounted for by that create request. -/
theorem C7_witness :
    ({ id := 1, content := "hi", created_at := 5 } : Note) ∈ emptyStore.notes ∨
    ∃ v now, Op.postOp (some v) now ∈ [Op.postOp (some (JVal.str "hi")) 5] ∧
      truthy v = true ∧ bindText v = some "hi" ∧ (5 : Nat) = now := by
  have h := (C7_notes_immutable emptyStore [Op.postOp (some (JVal.str "hi")) 5]).2
    { id := 1, content := "hi", created_at := 5 } (by decide)
  simpa using h

/-- The next AUTOINCREMENT rowid never decreases. -/
theorem nextId_le_applyOp (s : Store) (op : Op) :
    s.nextId ≤ (applyOp s op).1.nextId := by
  cases op with
  | listOp => exact le_refl _
  | delOp i => exact le_refl _
  | postOp c now =>
    rcases c with _ | v
    · exact le_refl _
    · by_cases hv : truthy v
      · cases hb : bindText v with
        | none => simp [applyOp, postNotes, hv, hb]
        | some txt =>
          simp only [applyOp, postNotes, hv, if_true, hb]
          omega
      · simp only [applyOp, postNotes, Bool.not_eq_true] at hv
        simp [applyOp, postNotes, hv]

/-- A successful create answers with the next AUTOINCREMENT rowid as id and
advances that rowid by one. -/
theorem respId_applyOp {s : Store} {op : Op} {i : Int}
    (h : respId (applyOp s op).2 = some i) :
    i = s.nextId ∧ (applyOp s op).1.nextId = s.nextId + 1 := by
  cases op with
  | listOp => simp [applyOp, getNotes, respId] at h
  | delOp j => simp [applyOp, deleteNotes, respId] at h
  | postOp c now =>
    rcases c with _ | v
    · simp [applyOp, postNotes, respId] at h
    · by_cases hv : truthy v
      · cases hb : bindText v with
        | none => simp [applyOp, postNotes, hv, hb, respId] at h
        | some txt =>
          simp only [applyOp, postNotes, hv, if_true, hb, respId,
            Option.some.injEq] at h
          refine ⟨h.symm, ?_⟩
          simp [applyOp, postNotes, hv, hb]
      · simp only [applyOp, postNotes, Bool.not_eq_true] at hv
        simp [applyOp, postNotes, hv, respId] at h

/-- Every id a run hands out is at least the store's next rowid. -/
theorem assignedIds_lower (ops : List Op) :
    ∀ (s : Store) (j : Int), j ∈ assignedIds s ops → s.nextId ≤ j := by
  induction ops with
  | nil =>
    intro s j hj
    simp [assignedIds] at hj
  | cons op ops ih =>
    intro s j hj
    cases hi : respId (applyOp s op).2 with
    | some i =>
      simp only [assignedIds, hi] at hj
      rcases List.mem_cons.mp hj with rfl | hj
      · exact le_of_eq (respId_applyOp hi).1.symm
      · exact le_trans (nextId_le_applyOp s op) (ih _ _ hj)
    | none =>
      simp only [assignedIds, hi] at hj
      exact le_trans (nextId_le_applyOp s op) (ih _ _ hj)

/-- The ids handed out along any run are strictly increasing. -/
theorem assignedIds_pairwise (ops : List Op) :
    ∀ s : Store, List.Pairwise (fun a b => a < b) (assignedIds s ops) := by
  induction ops with
  | nil =>
    intro s
    simp [assignedIds]
  | cons op ops ih =>
    intro s
    cases hi : respId (applyOp s op).2 with
    | some i =>
      simp only [assignedIds, hi]
      refine List.pairwise_cons.mpr ⟨fun j hj => ?_, ih _⟩
      have h1 := assignedIds_lower ops (applyOp s op).1 j hj
      have h2 := respId_applyOp hi
      omega
    | none =>
      simp only [assignedIds, hi]
      exact ih _

/-- One operation preserves the store invariant. -/
theorem goodStore_applyOp {s : Store} (hg : goodStore s) (op : Op) :
    goodStore (applyOp s op).1 := by
  cases op with
  | listOp => exact hg
  | delOp i =>
    refine ⟨hg.1.sublist ((List.filter_sublist _).map Note.id), ?_⟩
    exact fun n hn => hg.2 n (List.mem_filter.mp hn).1
  | postOp c now =>
    rcases c with _ | v
    · exact hg
    · by_cases hv : truthy v
      · cases hb : bindText v with
        | none =>
          simp only [applyOp, postNotes, hv, if_true, hb]
          exact hg
        | some txt =>
          simp only [applyOp, postNotes, hv, if_true, hb]
          constructor
          · rw [List.map_append]
            refine List.Nodup.append hg.1 (List.nodup_singleton _) ?_
            intro a ha hb2
            rcases List.mem_map.mp ha with ⟨n, hn, rfl⟩
            have h1 := hg.2 n hn
            have h2 : n.id = s.nextId := by simpa using hb2
            omega
          · intro n hn
            rcases List.mem_append.mp hn with h1 | h1
            · have := hg.2 n h1
              show n.id < s.nextId + 1
              omega
            · have h2 : n = { id := s.nextId, content := txt, created_at := now } := by
                simpa using h1
              subst h2
              show s.nextId < s.nextId + 1
              omega
      · simp only [applyOp, postNotes, Bool.not_eq_true] at hv
        simp only [applyOp, postNotes, hv, if_false]
        exact hg

/-- The invariant holds along every run. -/
theorem goodStore_runOps (ops : List Op) :
    ∀ s : Store, goodStore s → goodStore (runOps s ops) := by
  induction ops with
  | nil => exact fun s hs => hs
  | cons op ops ih => exact fun s hs => ih _ (goodStore_applyOp hs op)

/-- C8: ids are system-generated, unique and monotonically increasing: in
every store state reachable from the empty store the stored ids are
pairwise distinct, and along any run each successfully created note
receives an id strictly greater than every id assigned before it. -/
theorem C8_ids_unique_monotone (ops : List Op) :
    ((runOps emptyStore ops).notes.map Note.id).Nodup ∧
    List.Pairwise (fun a b => a < b) (assignedIds emptyStore ops) := by
  constructor
  · exact (goodStore_runOps ops emptyStore
      ⟨List.nodup_nil, fun n hn => absurd hn (List.not_mem_nil n)⟩).1
  · exact assignedIds_pairwise ops emptyStore

end NoteApp
